import Mathlib

/-!
Verification of the map-merge 3-D pipeline (map_merge_3d) against its
natural-language specification.

The development shallowly embeds the code of
  src/map_merge_3d/src/map_merging.cpp
  src/map_merge_3d/src/matching.cpp
  src/map_merge_3d/include/map_merge_3d/matching.h
into Lean.  Floating-point scalars of the C++ code are modelled as exact
rationals; descriptor feature values are modelled as integers (the
kNN-matching logic only compares distances, it never divides).  C++
exceptions are modelled with Except.  External collaborators (PCL and
Eigen numerical routines: RANSAC, SVD fitting, ICP alignment, kd-tree
construction, down-sampling) are modelled as explicit parameters or, where
the specification pins down their observable contract, as definitions
marked as modelled from the spec.
-/

/-! ## Rigid transforms: 4 x 4 matrices over the rationals

Eigen Matrix4f becomes a 4 x 4 rational matrix.  Eigen inverse() on a
fixed-size 4 x 4 matrix is the cofactor (adjugate) formula; minv below is
that formula, written with an explicit Laplace expansion so that it is
fully executable.
-/

abbrev Mat4 := Matrix (Fin 4) (Fin 4) ℚ

/-- Determinant of a 3 x 3 matrix, expanded along the first row. -/
def det3 (M : Fin 3 → Fin 3 → ℚ) : ℚ :=
  M 0 0 * (M 1 1 * M 2 2 - M 1 2 * M 2 1)
    - M 0 1 * (M 1 0 * M 2 2 - M 1 2 * M 2 0)
    + M 0 2 * (M 1 0 * M 2 1 - M 1 1 * M 2 0)

/-- Minor of a 4 x 4 matrix: determinant after deleting row i and column j. -/
def minor4 (A : Mat4) (i j : Fin 4) : ℚ :=
  det3 (fun r c => A (i.succAbove r) (j.succAbove c))

/-- Determinant of a 4 x 4 matrix by Laplace expansion along the first row. -/
def det4 (A : Mat4) : ℚ :=
  A 0 0 * minor4 A 0 0 - A 0 1 * minor4 A 0 1 + A 0 2 * minor4 A 0 2
    - A 0 3 * minor4 A 0 3

/-- Matrix inverse by the cofactor formula, as Eigen computes it for a
4 x 4 fixed-size matrix: transpose of the cofactor matrix divided by the
determinant.  On a singular matrix the rational convention gives division
by zero equal to zero; the code only ever inverts rigid transforms, which
are nonsingular. -/
def minv (A : Mat4) : Mat4 :=
  Matrix.of fun i j => (det4 A)⁻¹ * ((-1 : ℚ) ^ ((i : ℕ) + (j : ℕ)) * minor4 A j i)

/-! ## Data model: TransformEstimate (typedefs.h, used throughout)

A pairwise transform estimate: source map index, target map index, the
rigid transform mapping the source frame into the target frame, and a
confidence score.
-/

structure TransformEstimate where
  source_idx : ℕ
  target_idx : ℕ
  transform : Mat4
  confidence : ℚ

/-! ## map_merging.cpp lines 19-33: getTransform -/

/-- Embedding of getTransform (map_merging.cpp lines 19-33): scan the
pairwise transforms; on an estimate stored with source = fromIdx and
target = toIdx return the inverse of the stored transform; on an estimate
stored with source = toIdx and target = fromIdx return the stored
transform unchanged; if no estimate matches the pair, return the zero
matrix. -/
def getTransform (pairwise_transforms : List TransformEstimate)
    (fromIdx toIdx : ℕ) : Mat4 :=
  match pairwise_transforms with
  | [] => 0
  | est :: rest =>
    if est.source_idx = fromIdx ∧ est.target_idx = toIdx then minv est.transform
    else if est.source_idx = toIdx ∧ est.target_idx = fromIdx then est.transform
    else getTransform rest fromIdx toIdx

/-- The first estimate of the list matching the unordered pair
(fromIdx, toIdx), mirroring the scan order of getTransform. -/
def findEst : List TransformEstimate → ℕ → ℕ → Option TransformEstimate
  | [], _, _ => none
  | est :: rest, fromIdx, toIdx =>
    if (est.source_idx = fromIdx ∧ est.target_idx = toIdx)
        ∨ (est.source_idx = toIdx ∧ est.target_idx = fromIdx) then some est
    else findEst rest fromIdx toIdx

/-! ## map_merging.cpp lines 35-68: computeGlobalTransforms

The graph utilities used by computeGlobalTransforms
(largestConnectedComponent, findMaxSpanningTree, walkBreadthFirst,
numberOfNodesInEstimates) live in graph.h / graph.cpp, which is not under
src/.  The connected component, the spanning-tree adjacency and the chosen
tree center are therefore taken as parameters, and the breadth-first walk
is modelled from the spec.
-/

structure GraphEdge where
  fromIdx : ℕ
  toIdx : ℕ
deriving DecidableEq

/-- Embedding of the callback lambda of map_merging.cpp lines 61-65: on
visiting a tree edge, the global transform of the target node is set to
the global transform of the source node multiplied by the looked-up edge
transform; all other entries are untouched. -/
def stepEdge (component : List TransformEstimate) (g : ℕ → Mat4)
    (e : GraphEdge) : ℕ → Mat4 :=
  fun i => if i = e.toIdx then
    g e.fromIdx * getTransform component e.fromIdx e.toIdx
  else g i

/-- Applying stepEdge over a list of visited edges, in visit order. -/
def foldSteps (component : List TransformEstimate) (es : List GraphEdge)
    (g : ℕ → Mat4) : ℕ → Mat4 :=
  es.foldl (stepEdge component) g

/-- Modelled from the spec: the neighbours of a node that are not yet
visited, collected left to right while marking each collected node
visited, as a breadth-first walk discovers tree children.  Needed because
walkBreadthFirst of graph.h is not under src/. -/
def newNeighbors : List ℕ → List ℕ → List ℕ
  | [], _ => []
  | v :: rest, visited =>
    if v ∈ visited then newNeighbors rest visited
    else v :: newNeighbors rest (v :: visited)

/-- Modelled from the spec: walkBreadthFirst of graph.h is not under src/.
Per spec 4.8 the walk is a FIFO breadth-first traversal from the root: pop
a node, emit one edge to each not-yet-visited neighbour, mark those
neighbours visited and enqueue them.  Fuel bounds the recursion; any fuel
of at least the number of queue insertions gives the full walk. -/
def walkBFS (adj : ℕ → List ℕ) : ℕ → List ℕ → List ℕ → List GraphEdge
  | 0, _, _ => []
  | _ + 1, [], _ => []
  | fuel + 1, u :: q, visited =>
    (newNeighbors (adj u) visited).map (fun v => ⟨u, v⟩)
      ++ walkBFS adj fuel (q ++ newNeighbors (adj u) visited)
          (visited ++ newNeighbors (adj u) visited)

/-- Embedding of computeGlobalTransforms (map_merging.cpp lines 35-68).
All entries start as the zero matrix (line 54), the reference frame (the
first spanning-tree center) is set to the identity (line 57), and the
breadth-first walk of the spanning tree chains transforms along each
visited edge (lines 59-65).  The component, spanning-tree adjacency and
center come from graph.h, which is not under src/, so they are parameters
here. -/
def computeGlobalTransforms (component : List TransformEstimate)
    (adj : ℕ → List ℕ) (center : ℕ) (fuel : ℕ) : ℕ → Mat4 :=
  foldSteps component (walkBFS adj fuel [center] [center])
    (fun i => if i = center then 1 else 0)

/-- The nodes that get the zero transform by propagation: starting from a
set of zeroed nodes, each edge whose source is already zeroed zeroes its
target as well, in walk order. -/
def zeroReached (es : List GraphEdge) (zeroed : List ℕ) : List ℕ :=
  match es with
  | [] => zeroed
  | e :: rest =>
    if e.fromIdx ∈ zeroed then zeroReached rest (e.toIdx :: zeroed)
    else zeroReached rest zeroed

/-! ## map_merging.cpp lines 120-128: pair generation of estimateMapsTransforms -/

/-- Embedding of the pair-generation loops of estimateMapsTransforms
(map_merging.cpp lines 120-128): for i from 0 below n - 1 and j from i + 1
below n, a pair (i, j) is emplaced exactly when both maps have at least
one detected keypoint.  The argument is the list of per-map keypoint
counts. -/
def generatePairs (keycounts : List ℕ) : List (ℕ × ℕ) :=
  (List.range (keycounts.length - 1)).flatMap fun i =>
    (List.range' (i + 1) (keycounts.length - (i + 1))).filterMap fun j =>
      if 0 < keycounts.getD i 0 ∧ 0 < keycounts.getD j 0 then some (i, j)
      else none

/-! ## map_merging.cpp lines 139-142: confidence assignment

transformScore is declared in matching.h but its definition is not under
src/; per spec 4.7 it returns a plain scalar score with no error channel,
so the score is a parameter here.  The assignment is embedded into Except
to make the absence of any error path observable: the C++ statement is a
single unguarded division. -/

/-- Embedding of map_merging.cpp lines 139-142: the confidence of an
estimate is assigned the reciprocal of the registration score.  There is
no conditional and no throw on this path, so the embedding always
returns Except.ok. -/
def assignConfidence (est : TransformEstimate) (score : ℚ) :
    Except String TransformEstimate :=
  Except.ok ⟨est.source_idx, est.target_idx, est.transform, 1 / score⟩

/-! ## map_merging.cpp lines 151-175: composeMaps -/

abbrev Point3 := ℚ × ℚ × ℚ

abbrev PointCloud := List Point3

/-- Application of a 4 x 4 transform to a 3-D point, as
pcl transformPointCloud does: multiply the affine part against the
homogeneous point (x, y, z, 1). -/
def applyTransform (t : Mat4) (p : Point3) : Point3 :=
  (t 0 0 * p.1 + t 0 1 * p.2.1 + t 0 2 * p.2.2 + t 0 3,
   t 1 0 * p.1 + t 1 1 * p.2.1 + t 1 2 * p.2.2 + t 1 3,
   t 2 0 * p.1 + t 2 1 * p.2.1 + t 2 2 * p.2.2 + t 2 3)

/-- Embedding of pcl transformPointCloud restricted to what composeMaps
observes: every point transformed. -/
def transformPointCloud (t : Mat4) (cloud : PointCloud) : PointCloud :=
  cloud.map (applyTransform t)

/-- Embedding of composeMaps (map_merging.cpp lines 151-175).  A size
mismatch between clouds and transforms throws (lines 155-158).  Otherwise
every cloud whose transform is not the zero sentinel is transformed and
accumulated (lines 162-169) and the accumulated cloud is down-sampled to
the requested resolution (line 172).  downSample lives in features.cpp,
not under src/, so it is a parameter ds here. -/
def composeMaps (ds : PointCloud → ℚ → PointCloud)
    (clouds : List PointCloud) (transforms : List Mat4) (resolution : ℚ) :
    Except String PointCloud :=
  if clouds.length ≠ transforms.length then
    Except.error "composeMaps: clouds and transforms size must be the same."
  else
    Except.ok (ds
      ((clouds.zip transforms).foldl
        (fun result ct =>
          if ct.2 = 0 then result else result ++ transformPointCloud ct.2 ct.1)
        [])
      resolution)

/-! ## matching.cpp: descriptor matching

A descriptor cloud (pcl PCLPointCloud2) carries a list of field
descriptions (the schema) and the descriptor data itself.  Feature values
are modelled as integers; the matching logic only compares squared
distances.
-/

abbrev Descriptor := List ℤ

structure LocalDescriptors where
  fields : List String
  points : List Descriptor

structure Correspondence where
  index_query : ℕ
  index_match : ℕ
  distance : ℤ
deriving DecidableEq

/-- Embedding of assertDescriptorsPair (matching.cpp lines 16-25): throw
exactly when the field list of either descriptor cloud is empty.  Note the
check inspects the schema (fields), not the number of descriptor
points. -/
def assertDescriptorsPair (source_descriptors target_descriptors : LocalDescriptors) :
    Except String Unit :=
  if source_descriptors.fields.isEmpty ∨ target_descriptors.fields.isEmpty then
    Except.error "descriptors must contain at least one field with descriptors."
  else Except.ok ()

/-- Squared feature-space distance between two descriptors, the metric a
pcl kd-tree over descriptor space reports. -/
def sqDist (a b : Descriptor) : ℤ :=
  ((a.zip b).map fun p => (p.1 - p.2) * (p.1 - p.2)).sum

/-- Comparison used to order neighbour candidates: by squared distance,
ties by index, making the search deterministic. -/
def nnLe (a b : ℕ × ℤ) : Bool :=
  a.2 < b.2 || (a.2 = b.2 && a.1 ≤ b.1)

def insertSorted (a : ℕ × ℤ) : List (ℕ × ℤ) → List (ℕ × ℤ)
  | [] => [a]
  | b :: l => if nnLe a b then a :: b :: l else b :: insertSorted a l

def sortNN (l : List (ℕ × ℤ)) : List (ℕ × ℤ) :=
  l.foldr insertSorted []

/-- Embedding of nearestKSearch with sorted results over a descriptor
cloud: the indices of the k nearest descriptors to the query, closest
first, paired with their squared distances.  Returns fewer than k entries
when the cloud is smaller than k, as pcl does. -/
def nearestK (cloud : List Descriptor) (query : Descriptor) (k : ℕ) :
    List (ℕ × ℤ) :=
  (sortNN ((cloud.enum.map fun p => (p.1, sqDist p.2 query)))).take k

/-- Embedding of the templated findFeatureCorrespondences worker
(matching.cpp lines 28-93) on its defined region, generalised over the
neighbour count k; the worker in this snapshot of matching.cpp fixes
k = 5 (line 55) while matching.h line 8 declares a caller-supplied k
defaulting to 5.  For each source descriptor i: search the k nearest
target descriptors; walking those forward matches closest first,
back-search the k nearest source descriptors of the candidate target and
accept the first candidate whose back-matches contain i, recording
(i, match, distance) and moving to the next source descriptor (lines
63-88).  Caveat: the forward loop of matching.cpp line 68 iterates j
below k reading k_indices[j] even when the search returned fewer than k
neighbours (target smaller than k), where the read is past the end of
the vector and the code has no defined result; this function gives the
loop semantics only where every read is in range (every forward scan
either returns k entries or hits a reciprocal match among the returned
entries).  findFeatureCorrespondencesChecked below embeds the bounds
behaviour itself and marks the out-of-range region as undefined. -/
def findFeatureCorrespondencesK (k : ℕ)
    (source_descriptors target_descriptors : List Descriptor) :
    List Correspondence :=
  source_descriptors.enum.filterMap fun si =>
    (nearestK target_descriptors si.2 k).findSome? fun m =>
      if ((nearestK source_descriptors (target_descriptors.getD m.1 []) k).map
            Prod.fst).contains si.1 then
        some ⟨si.1, m.1, m.2⟩
      else none

/-- Embedding of one iteration of the outer loop of matching.cpp lines
63-88 for source index i with descriptor d, including the bounds
behaviour of the forward loop: the first returned forward candidate
whose backward k-nearest set contains i yields its correspondence
(lines 75-85); if no returned candidate matches and the search returned
fewer than k entries (target smaller than k), the loop goes on to read
k_indices[j] past the end of the vector (line 69) and the result is
undefined, modelled as none; if no candidate of a full batch of k
matches, the source descriptor simply gets no correspondence. -/
def sourceScan (k : ℕ) (source_descriptors target_descriptors : List Descriptor)
    (i : ℕ) (d : Descriptor) : Option (Option Correspondence) :=
  match (nearestK target_descriptors d k).findSome? fun m =>
      if ((nearestK source_descriptors (target_descriptors.getD m.1 []) k).map
            Prod.fst).contains i then
        some (⟨i, m.1, m.2⟩ : Correspondence)
      else none with
  | some c => some (some c)
  | none =>
    if (nearestK target_descriptors d k).length < k then none else some none

/-- Runs sourceScan over the indexed source descriptors in order,
collecting the correspondences; undefined (none) as soon as one scan is
undefined. -/
def collectMatches (k : ℕ) (source_descriptors target_descriptors : List Descriptor) :
    List (ℕ × Descriptor) → Option (List Correspondence)
  | [] => some []
  | si :: rest =>
    match sourceScan k source_descriptors target_descriptors si.1 si.2 with
    | none => none
    | some none => collectMatches k source_descriptors target_descriptors rest
    | some (some c) =>
      (collectMatches k source_descriptors target_descriptors rest).map
        fun cs => c :: cs

/-- Faithful embedding of the templated findFeatureCorrespondences worker
(matching.cpp lines 28-93) including the bounds behaviour of its forward
loop: some result exactly when every per-source scan stays within the
returned neighbour entries, none when the code would read past their end
(matching.cpp line 69 with a target smaller than k and no earlier
reciprocal match).  On an empty source the loop body never runs and the
result is the empty list. -/
def findFeatureCorrespondencesChecked (k : ℕ)
    (source_descriptors target_descriptors : List Descriptor) :
    Option (List Correspondence) :=
  collectMatches k source_descriptors target_descriptors source_descriptors.enum

/-- Embedding of the outer findFeatureCorrespondences (matching.cpp lines
96-109): assert the descriptor pair (line 100), then dispatch on the name
of the first field (lines 102-108).  dispatchByDescriptorName of
dispatch.h is not under src/; modelled from the spec: the descriptor kind
tag is resolved at runtime against a fixed registry of supported kinds
(spec section 3), taken here as the parameter registry, and an
unrecognised kind is an error.  The selected worker runs with the
hardcoded k = 5 of matching.cpp line 55; its undefined out-of-bounds
region is propagated as none. -/
def findFeatureCorrespondences (registry : List String)
    (source_descriptors target_descriptors : LocalDescriptors) :
    Except String (Option (List Correspondence)) := do
  let _ ← assertDescriptorsPair source_descriptors target_descriptors
  if source_descriptors.fields.headD "" ∈ registry then
    pure (findFeatureCorrespondencesChecked 5 source_descriptors.points
      target_descriptors.points)
  else Except.error "unknown descriptor type"

/-! ## matching.cpp lines 111-152: estimateTransformFromCorrespondences

The consensus search (pcl CorrespondenceRejectorSampleConsensus) and the
closed-form SVD fit (pcl TransformationEstimationSVD) are external
collaborators; their outcomes are parameters.
-/

/-- Outcome of the consensus search: the best transformation it found and
the correspondences it kept as inliers. -/
structure RansacOutcome where
  bestTransformation : Mat4
  inliers : List Correspondence

/-- Embedding of estimateTransformFromCorrespondences (matching.cpp lines
111-152).  If the best model returned by the consensus search is the
identity, the search is deemed failed: the zero transform and an empty
inlier set are returned (lines 135-142).  Otherwise the transform is
re-fitted by the SVD estimator over the inlier correspondences and
returned together with the inliers (lines 144-151). -/
def estimateTransformFromCorrespondences (ransac : RansacOutcome)
    (svdFit : List Correspondence → Mat4) : Mat4 × List Correspondence :=
  if ransac.bestTransformation = 1 then (0, [])
  else (svdFit ransac.inliers, ransac.inliers)

/-! ## matching.cpp lines 214-248: estimateTransformICP

The ICP solve is an external collaborator.  The source cloud is first
transformed by the initial guess (lines 228-230), ICP aligns the
pre-transformed source to the target producing an incremental transform,
and the function returns the product of that incremental transform with
the initial guess (line 247).
-/

/-- Embedding of the return expression of estimateTransformICP
(matching.cpp line 247): the converged incremental transform composed with
the supplied initial guess. -/
def estimateTransformICP (icpFinalTransformation initial_guess : Mat4) : Mat4 :=
  icpFinalTransformation * initial_guess

/-! ## Helper lemmas -/

theorem getTransform_of_findEst (fromIdx toIdx : ℕ) :
    ∀ (P : List TransformEstimate) (est : TransformEstimate),
      findEst P fromIdx toIdx = some est →
      getTransform P fromIdx toIdx =
        if est.source_idx = fromIdx ∧ est.target_idx = toIdx then minv est.transform
        else est.transform := by
  intro P
  induction P with
  | nil => intro est h; simp [findEst] at h
  | cons e rest ih =>
    intro est h
    rw [findEst] at h
    rw [getTransform]
    by_cases h1 : e.source_idx = fromIdx ∧ e.target_idx = toIdx
    · rw [if_pos (Or.inl h1)] at h
      cases h
      rw [if_pos h1, if_pos h1]
    · by_cases h2 : e.source_idx = toIdx ∧ e.target_idx = fromIdx
      · rw [if_pos (Or.inr h2)] at h
        cases h
        rw [if_neg h1, if_pos h2, if_neg h1]
      · rw [if_neg (fun hc => hc.elim h1 h2)] at h
        rw [if_neg h1, if_neg h2]
        exact ih est h

theorem getTransform_zero_of_findEst_none (fromIdx toIdx : ℕ) :
    ∀ P : List TransformEstimate,
      findEst P fromIdx toIdx = none → getTransform P fromIdx toIdx = 0 := by
  intro P
  induction P with
  | nil => intro _; rfl
  | cons e rest ih =>
    intro h
    rw [findEst] at h
    by_cases hc : (e.source_idx = fromIdx ∧ e.target_idx = toIdx)
        ∨ (e.source_idx = toIdx ∧ e.target_idx = fromIdx)
    · rw [if_pos hc] at h; cases h
    · rw [if_neg hc] at h
      rw [getTransform, if_neg (fun hx => hc (Or.inl hx)),
        if_neg (fun hx => hc (Or.inr hx))]
      exact ih h

theorem newNeighbors_not_visited (vs : List ℕ) :
    ∀ visited, ∀ v ∈ newNeighbors vs visited, v ∉ visited := by
  induction vs with
  | nil => intro visited v hv; simp [newNeighbors] at hv
  | cons a vs ih =>
    intro visited v hv
    rw [newNeighbors] at hv
    by_cases ha : a ∈ visited
    · rw [if_pos ha] at hv
      exact ih visited v hv
    · rw [if_neg ha] at hv
      rcases List.mem_cons.mp hv with h | h
      · exact h ▸ ha
      · exact fun hviz => ih (a :: visited) v h (List.mem_cons_of_mem a hviz)

theorem newNeighbors_nodup (vs : List ℕ) :
    ∀ visited, (newNeighbors vs visited).Nodup := by
  induction vs with
  | nil => intro visited; simp [newNeighbors]
  | cons a vs ih =>
    intro visited
    rw [newNeighbors]
    by_cases ha : a ∈ visited
    · rw [if_pos ha]; exact ih visited
    · rw [if_neg ha]
      refine List.nodup_cons.mpr ⟨?_, ih (a :: visited)⟩
      exact fun hmem =>
        newNeighbors_not_visited vs (a :: visited) a hmem (List.mem_cons_self a visited)

theorem walkBFS_targets (adj : ℕ → List ℕ) :
    ∀ (fuel : ℕ) (q visited : List ℕ),
      ((walkBFS adj fuel q visited).map GraphEdge.toIdx).Nodup
      ∧ ∀ e ∈ walkBFS adj fuel q visited, e.toIdx ∉ visited := by
  intro fuel
  induction fuel with
  | zero => intro q visited; simp [walkBFS]
  | succ fuel ih =>
    intro q visited
    match q with
    | [] => simp [walkBFS]
    | u :: q =>
      rw [walkBFS]
      have hmm : (List.map GraphEdge.toIdx
          ((newNeighbors (adj u) visited).map (fun v => (⟨u, v⟩ : GraphEdge))))
          = newNeighbors (adj u) visited := by
        rw [List.map_map]; exact List.map_id _
      constructor
      · rw [List.map_append, List.nodup_append, hmm]
        refine ⟨newNeighbors_nodup (adj u) visited, (ih _ _).1, ?_⟩
        intro x hx hx2
        obtain ⟨e, he, hex⟩ := List.mem_map.mp hx2
        have := (ih (q ++ newNeighbors (adj u) visited)
          (visited ++ newNeighbors (adj u) visited)).2 e he
        exact this (List.mem_append_right visited (hex ▸ hx))
      · intro e he
        rcases List.mem_append.mp he with h | h
        · obtain ⟨v, hv, hev⟩ := List.mem_map.mp h
          have : e.toIdx = v := by rw [← hev]
          exact this ▸ newNeighbors_not_visited (adj u) visited v hv
        · have := (ih (q ++ newNeighbors (adj u) visited)
            (visited ++ newNeighbors (adj u) visited)).2 e h
          exact fun hviz => this (List.mem_append_left _ hviz)

theorem foldSteps_untouched (component : List TransformEstimate) :
    ∀ (es : List GraphEdge) (g : ℕ → Mat4) (w : ℕ),
      (∀ e ∈ es, e.toIdx ≠ w) → foldSteps component es g w = g w := by
  intro es
  induction es with
  | nil => intro g w _; rfl
  | cons e es ih =>
    intro g w h
    rw [foldSteps, List.foldl_cons]
    have h2 := ih (stepEdge component g e) w fun x hx => h x (List.mem_cons_of_mem e hx)
    rw [foldSteps] at h2
    rw [h2]
    simp only [stepEdge]
    rw [if_neg fun hw => h e (List.mem_cons_self e es) hw.symm]

theorem foldSteps_zero_absorbing (component : List TransformEstimate) :
    ∀ (es : List GraphEdge) (zeroed : List ℕ) (g : ℕ → Mat4),
      (es.map GraphEdge.toIdx).Nodup →
      (∀ u ∈ zeroed, u ∉ es.map GraphEdge.toIdx) →
      (∀ u ∈ zeroed, g u = 0) →
      ∀ w ∈ zeroReached es zeroed, foldSteps component es g w = 0 := by
  intro es
  induction es with
  | nil =>
    intro zeroed g _ _ hz w hw
    rw [zeroReached] at hw
    exact hz w hw
  | cons e es ih =>
    intro zeroed g hnd hdisj hz w hw
    rw [List.map_cons, List.nodup_cons] at hnd
    rw [zeroReached] at hw
    rw [foldSteps, List.foldl_cons]
    have hfold : ∀ h, foldSteps component es (stepEdge component g e) w = h →
        List.foldl (stepEdge component) (stepEdge component g e) es w = h := by
      intro h hh; rw [foldSteps] at hh; exact hh
    by_cases he : e.fromIdx ∈ zeroed
    · rw [if_pos he] at hw
      refine hfold 0 (ih (e.toIdx :: zeroed) (stepEdge component g e) hnd.2 ?_ ?_ w hw)
      · intro u hu
        rcases List.mem_cons.mp hu with h | h
        · exact h ▸ hnd.1
        · exact fun hmem => hdisj u h (List.mem_cons_of_mem _ hmem)
      · intro u hu
        by_cases hue : u = e.toIdx
        · subst hue
          show (if e.toIdx = e.toIdx then
              g e.fromIdx * getTransform component e.fromIdx e.toIdx
            else g e.toIdx) = 0
          rw [if_pos rfl, hz e.fromIdx he, zero_mul]
        · simp only [stepEdge, if_neg hue]
          rcases List.mem_cons.mp hu with h | h
          · exact absurd h hue
          · exact hz u h
    · rw [if_neg he] at hw
      refine hfold 0 (ih zeroed (stepEdge component g e) hnd.2 ?_ ?_ w hw)
      · exact fun u hu hmem => hdisj u hu (List.mem_cons_of_mem _ hmem)
      · intro u hu
        have hne : u ≠ e.toIdx := fun hEq =>
          hdisj u hu (hEq ▸ List.mem_cons_self _ _)
        simp only [stepEdge, if_neg hne]
        exact hz u hu

theorem mat4_one_ne_zero : (1 : Mat4) ≠ 0 := by
  intro h
  have h2 := congrFun (congrFun h 0) 0
  rw [Matrix.one_apply_eq, Matrix.zero_apply] at h2
  exact one_ne_zero h2

theorem applyTransform_one (p : Point3) : applyTransform 1 p = p := by
  obtain ⟨x, y, z⟩ := p
  simp [applyTransform, Matrix.one_apply]

theorem transformPointCloud_one (cloud : PointCloud) :
    transformPointCloud 1 cloud = cloud := by
  rw [transformPointCloud, funext applyTransform_one]
  simp

theorem composeFold_normal (l : List (PointCloud × Mat4)) :
    ∀ acc : PointCloud,
      l.foldl
        (fun result ct =>
          if ct.2 = 0 then result else result ++ transformPointCloud ct.2 ct.1)
        acc
      = acc ++ (l.filter fun ct => ct.2 ≠ 0).flatMap
          fun ct => transformPointCloud ct.2 ct.1 := by
  induction l with
  | nil => intro acc; simp
  | cons ct l ih =>
    intro acc
    rw [List.foldl_cons, List.filter_cons]
    by_cases h : ct.2 = 0
    · rw [if_pos h, ih acc]
      have : (decide (ct.2 ≠ 0)) = false := by simp [h]
      rw [this]
      simp
    · rw [if_neg h, ih (acc ++ transformPointCloud ct.2 ct.1)]
      have : (decide (ct.2 ≠ 0)) = true := by simp [h]
      rw [this]
      simp [List.append_assoc]

theorem composeSelect :
    ∀ (clouds : List PointCloud) (transforms : List Mat4) (i : ℕ),
      clouds.length = transforms.length → i < clouds.length →
      transforms.getD i 0 = 1 →
      (∀ j, j < transforms.length → j ≠ i → transforms.getD j 0 = 0) →
      ((clouds.zip transforms).filter fun ct => ct.2 ≠ 0).flatMap
          (fun ct => transformPointCloud ct.2 ct.1)
        = clouds.getD i [] := by
  intro clouds
  induction clouds with
  | nil => intro transforms i _ hi; exact absurd hi (by simp)
  | cons c cs ih =>
    intro transforms i hlen hi hone hzero
    match transforms with
    | [] => exact absurd hlen (by simp)
    | t :: ts =>
      rw [List.zip_cons_cons, List.filter_cons]
      match i with
      | 0 =>
        rw [List.getD_cons_zero] at hone
        subst hone
        have hts : ∀ a ∈ ts, a = 0 := by
          intro a ha
          obtain ⟨j, hj, rfl⟩ := List.mem_iff_getElem.mp ha
          have := hzero (j + 1) (by simpa using Nat.succ_lt_succ hj) (by omega)
          rw [List.getD_cons_succ] at this
          rwa [List.getD_eq_getElem?_getD, List.getElem?_eq_getElem hj] at this
        have hfil : (cs.zip ts).filter (fun ct => ct.2 ≠ 0) = [] := by
          rw [List.filter_eq_nil_iff]
          intro a ha
          simp [hts a.2 (List.of_mem_zip ha).2]
        rw [if_pos (show (decide ((c, (1 : Mat4)).2 ≠ 0)) = true by
          simp [mat4_one_ne_zero]), hfil]
        simp [transformPointCloud_one]
      | i + 1 =>
        have ht : t = 0 := by
          have := hzero 0 (by simp) (by omega)
          rwa [List.getD_cons_zero] at this
        subst ht
        rw [if_neg (show ¬(decide ((c, (0 : Mat4)).2 ≠ 0)) = true by simp)]
        rw [List.getD_cons_succ]
        refine ih ts i (by simpa using hlen) (by simpa using hi) ?_ ?_
        · have := hone; rwa [List.getD_cons_succ] at this
        · intro j hj hji
          have := hzero (j + 1) (by simpa using Nat.succ_lt_succ hj) (by omega)
          rwa [List.getD_cons_succ] at this

theorem mem_generatePairs (keycounts : List ℕ) (i j : ℕ) :
    (i, j) ∈ generatePairs keycounts ↔
      (i < j ∧ j < keycounts.length
        ∧ 0 < keycounts.getD i 0 ∧ 0 < keycounts.getD j 0) := by
  rw [generatePairs]
  simp only [List.mem_flatMap, List.mem_filterMap, List.mem_range,
    List.mem_range'_1]
  constructor
  · rintro ⟨a, ha, b, hb, hab⟩
    by_cases hq : 0 < keycounts.getD a 0 ∧ 0 < keycounts.getD b 0
    · rw [if_pos hq] at hab
      have hab2 : (a, b) = (i, j) := Option.some.inj hab
      obtain ⟨rfl, rfl⟩ := Prod.mk.inj hab2
      refine ⟨by omega, by omega, hq.1, hq.2⟩
    · rw [if_neg hq] at hab
      cases hab
  · rintro ⟨hij, hjn, hi, hj⟩
    refine ⟨i, by omega, j, ⟨by omega, by omega⟩, ?_⟩
    rw [if_pos ⟨hi, hj⟩]

theorem flatMap_nodup_fst (f : ℕ → List (ℕ × ℕ)) (l : List ℕ)
    (hl : l.Nodup) (hf : ∀ a, (f a).Nodup) (hkey : ∀ a, ∀ b ∈ f a, b.1 = a) :
    (l.flatMap f).Nodup := by
  induction l with
  | nil => simp
  | cons a l ih =>
    rw [List.flatMap_cons, List.nodup_append]
    rw [List.nodup_cons] at hl
    refine ⟨hf a, ih hl.2, ?_⟩
    intro b hb hb2
    obtain ⟨c, hc, hbc⟩ := List.mem_flatMap.mp hb2
    exact hl.1 ((hkey a b hb) ▸ (hkey c b hbc) ▸ hc)

theorem generatePairs_nodup (keycounts : List ℕ) :
    (generatePairs keycounts).Nodup := by
  rw [generatePairs]
  refine flatMap_nodup_fst _ _ (List.nodup_range _) ?_ ?_
  · intro a
    refine List.Nodup.filterMap ?_ (List.nodup_range' _ _)
    intro x y b hx hy
    by_cases hqx : 0 < keycounts.getD a 0 ∧ 0 < keycounts.getD x 0
    · rw [if_pos hqx] at hx
      by_cases hqy : 0 < keycounts.getD a 0 ∧ 0 < keycounts.getD y 0
      · rw [if_pos hqy] at hy
        cases hx; cases hy; rfl
      · rw [if_neg hqy] at hy; cases hy
    · rw [if_neg hqx] at hx; cases hx
  · intro a b hb
    obtain ⟨x, _, hx⟩ := List.mem_filterMap.mp hb
    by_cases hq : 0 < keycounts.getD a 0 ∧ 0 < keycounts.getD x 0
    · rw [if_pos hq] at hx; cases hx; rfl
    · rw [if_neg hq] at hx; cases hx

theorem insertSorted_length (a : ℕ × ℤ) :
    ∀ l : List (ℕ × ℤ), (insertSorted a l).length = l.length + 1 := by
  intro l
  induction l with
  | nil => rfl
  | cons b l ih =>
    rw [insertSorted]
    by_cases h : nnLe a b = true
    · rw [if_pos h]
      rfl
    · rw [if_neg h, List.length_cons, ih, List.length_cons]

theorem sortNN_length : ∀ l : List (ℕ × ℤ), (sortNN l).length = l.length := by
  intro l
  induction l with
  | nil => rfl
  | cons a l ih =>
    rw [sortNN, List.foldr_cons, insertSorted_length]
    rw [sortNN] at ih
    rw [ih, List.length_cons]

theorem nearestK_length (cloud : List Descriptor) (query : Descriptor) (k : ℕ) :
    (nearestK cloud query k).length = min k cloud.length := by
  rw [nearestK, List.length_take, sortNN_length, List.length_map,
    List.enum_length]

theorem sourceScan_of_full_batch (k : ℕ) (s t : List Descriptor)
    (hk : k ≤ t.length) (i : ℕ) (d : Descriptor) :
    sourceScan k s t i d = some ((nearestK t d k).findSome? fun m =>
      if ((nearestK s (t.getD m.1 []) k).map Prod.fst).contains i then
        some (⟨i, m.1, m.2⟩ : Correspondence)
      else none) := by
  have hlen : ¬ (nearestK t d k).length < k := by
    rw [nearestK_length]
    omega
  rw [sourceScan]
  cases hfs : (nearestK t d k).findSome? fun m =>
      if ((nearestK s (t.getD m.1 []) k).map Prod.fst).contains i then
        some (⟨i, m.1, m.2⟩ : Correspondence)
      else none with
  | none => simp [hfs, hlen]
  | some c => simp [hfs]

theorem collectMatches_of_full_batch (k : ℕ) (s t : List Descriptor)
    (hk : k ≤ t.length) :
    ∀ l : List (ℕ × Descriptor),
      collectMatches k s t l = some (l.filterMap fun si =>
        (nearestK t si.2 k).findSome? fun m =>
          if ((nearestK s (t.getD m.1 []) k).map Prod.fst).contains si.1 then
            some (⟨si.1, m.1, m.2⟩ : Correspondence)
          else none) := by
  intro l
  induction l with
  | nil => rfl
  | cons si rest ih =>
    simp only [collectMatches, List.filterMap_cons]
    rw [sourceScan_of_full_batch k s t hk si.1 si.2]
    cases hfs : (nearestK t si.2 k).findSome? fun m =>
        if ((nearestK s (t.getD m.1 []) k).map Prod.fst).contains si.1 then
          some (⟨si.1, m.1, m.2⟩ : Correspondence)
        else none with
    | none => simp [ih]
    | some c => simp [ih]

theorem findFeatureCorrespondencesChecked_of_full_batch (k : ℕ)
    (source_descriptors target_descriptors : List Descriptor)
    (hk : k ≤ target_descriptors.length) :
    findFeatureCorrespondencesChecked k source_descriptors target_descriptors
      = some (findFeatureCorrespondencesK k source_descriptors
          target_descriptors) := by
  rw [findFeatureCorrespondencesChecked, findFeatureCorrespondencesK,
    collectMatches_of_full_batch k source_descriptors target_descriptors hk]

theorem findFeatureCorrespondencesChecked_nil_source (k : ℕ)
    (target_descriptors : List Descriptor) :
    findFeatureCorrespondencesChecked k [] target_descriptors = some [] := rfl

theorem findFeatureCorrespondencesChecked_nil_target (k : ℕ) (hk : 0 < k)
    (d : Descriptor) (rest : List Descriptor) :
    findFeatureCorrespondencesChecked k (d :: rest) [] = none := by
  have hscan : sourceScan k (d :: rest) [] 0 d = none := by
    rw [sourceScan]
    simp [nearestK, sortNN, hk]
  rw [findFeatureCorrespondencesChecked, List.enum_cons]
  simp [collectMatches, hscan]

/-! ## Concrete evaluation helpers

Fin-index facts used to evaluate the cofactor inverse on a concrete
matrix, and a concrete non-involutive rigid transform: the translation by
one along x, whose inverse translates by minus one.
-/

theorem sA00 : (0 : Fin 4).succAbove 0 = 1 := by decide
theorem sA01 : (0 : Fin 4).succAbove 1 = 2 := by decide
theorem sA02 : (0 : Fin 4).succAbove 2 = 3 := by decide
theorem sA10 : (1 : Fin 4).succAbove 0 = 0 := by decide
theorem sA11 : (1 : Fin 4).succAbove 1 = 2 := by decide
theorem sA12 : (1 : Fin 4).succAbove 2 = 3 := by decide
theorem sA20 : (2 : Fin 4).succAbove 0 = 0 := by decide
theorem sA21 : (2 : Fin 4).succAbove 1 = 1 := by decide
theorem sA22 : (2 : Fin 4).succAbove 2 = 3 := by decide
theorem sA30 : (3 : Fin 4).succAbove 0 = 0 := by decide
theorem sA31 : (3 : Fin 4).succAbove 1 = 1 := by decide
theorem sA32 : (3 : Fin 4).succAbove 2 = 2 := by decide
theorem sS0 : (Fin.succ (0 : Fin 3) : Fin 4) = 1 := by decide
theorem sS1 : (Fin.succ (1 : Fin 3) : Fin 4) = 2 := by decide
theorem sS2 : (Fin.succ (2 : Fin 3) : Fin 4) = 3 := by decide
theorem cS0 : (Fin.castSucc (0 : Fin 3) : Fin 4) = 0 := by decide
theorem cS1 : (Fin.castSucc (1 : Fin 3) : Fin 4) = 1 := by decide
theorem cS2 : (Fin.castSucc (2 : Fin 3) : Fin 4) = 2 := by decide
theorem val3 : ((3 : Fin 4) : ℕ) = 3 := rfl

/-- The rigid transform translating by one along the x axis: a concrete
transform that differs from its own inverse. -/
def Ttr : Mat4 :=
  Matrix.of fun i j => if i = j then 1 else if i = 0 ∧ j = 3 then 1 else 0

theorem minor4_Ttr_30 : minor4 Ttr 3 0 = 1 := by
  simp [minor4, det3, sA00, sA01, sA02, sA30, sA31, sA32, sS0, sS1, sS2,
    cS0, cS1, cS2, Ttr, Matrix.of_apply]

theorem det4_Ttr : det4 Ttr = 1 := by
  simp [det4, minor4, det3, sA00, sA01, sA02, sA10, sA11, sA12, sA20, sA21,
    sA22, sA30, sA31, sA32, sS0, sS1, sS2, cS0, cS1, cS2, Ttr, Matrix.of_apply]

theorem minv_Ttr_03 : minv Ttr 0 3 = -1 := by
  simp [minv, Matrix.of_apply, det4_Ttr, minor4_Ttr_30, val3]
  norm_num

theorem minv_Ttr_ne : minv Ttr ≠ Ttr := by
  intro h
  have h2 := congrFun (congrFun h 0) 3
  rw [minv_Ttr_03] at h2
  have h3 : Ttr 0 3 = 1 := by simp [Ttr, Matrix.of_apply]
  rw [h3] at h2
  norm_num at h2

/-- The concrete pairwise estimate used in the counterexamples: stored
with source index 0, target index 1 and the translation Ttr. -/
def estTr : TransformEstimate := ⟨0, 1, Ttr, 1⟩

/-! ## Claims -/

/-- C1 counterexample: the claim says the looked-up edge transform inverts
the stored transform exactly when the estimate was stored reversed (source
= to, target = from).  On the single estimate stored forward as (0, 1) the
walk edge from 0 to 1 yields the INVERSE of the stored transform, not the
stored transform; and the walk edge from 1 to 0 (stored reversed) yields
the stored transform unchanged, not its inverse.  Both directions
contradict the claim. -/
theorem C1_counterexample :
    getTransform [estTr] 0 1 ≠ estTr.transform
    ∧ getTransform [estTr] 1 0 ≠ minv estTr.transform := by
  constructor
  · intro h
    exact minv_Ttr_ne h
  · intro h
    exact minv_Ttr_ne (Eq.symm h)

/-- C1 (amended): for every tree edge (from, to) visited by the walk, the
stored estimate for the unordered pair is looked up regardless of stored
direction, the edge transform is the inverse of the stored transform
exactly when the estimate was stored with source = from and target = to
(and the stored transform unchanged when stored with source = to and
target = from), and the walk callback sets the global transform of the
target node to the global transform of the source node multiplied by that
oriented edge transform. -/
theorem C1_edge_orientation :
    (∀ (P : List TransformEstimate) (f t : ℕ) (est : TransformEstimate),
      findEst P f t = some est →
      getTransform P f t =
        if est.source_idx = f ∧ est.target_idx = t then minv est.transform
        else est.transform)
    ∧ ∀ (component : List TransformEstimate) (g : ℕ → Mat4) (e : GraphEdge),
        stepEdge component g e e.toIdx =
          g e.fromIdx * getTransform component e.fromIdx e.toIdx := by
  constructor
  · intro P f t est h
    exact getTransform_of_findEst f t P est h
  · intro component g e
    show (if e.toIdx = e.toIdx then
        g e.fromIdx * getTransform component e.fromIdx e.toIdx else g e.toIdx)
      = g e.fromIdx * getTransform component e.fromIdx e.toIdx
    rw [if_pos rfl]

/-- C1 witness: on the single estimate stored as (0, 1), the lookup for
the walk edge from 0 to 1 inverts and the lookup for the walk edge from
1 to 0 returns the stored transform. -/
theorem C1_edge_orientation_witness :
    getTransform [estTr] 0 1 = minv estTr.transform
    ∧ getTransform [estTr] 1 0 = estTr.transform := by
  constructor
  · have h := C1_edge_orientation.1 [estTr] 0 1 estTr rfl
    rwa [if_pos ⟨rfl, rfl⟩] at h
  · have h := C1_edge_orientation.1 [estTr] 1 0 estTr rfl
    rwa [if_neg (show ¬(estTr.source_idx = 1 ∧ estTr.target_idx = 0) by
      decide)] at h

/-- C2 counterexample: at a registration score of 0 the confidence
assignment of estimateMapsTransforms succeeds, assigning the unguarded
reciprocal, instead of treating the zero score as an error condition. -/
theorem C2_counterexample :
    assignConfidence estTr 0 = Except.ok ⟨0, 1, Ttr, 1 / 0⟩ := rfl

/-- C2 (amended): for every qualifying map pair the orchestrator computes
the edge confidence as the reciprocal of the registration score, with no
guard: the assignment never raises an error, and at score 0 the division
is performed unconditionally (IEEE doubles silently produce infinity
there; this exact-rational model evaluates 1 / 0 by the rational
convention). -/
theorem C2_reciprocal_unguarded :
    ∀ (est : TransformEstimate) (score : ℚ),
      assignConfidence est score =
        Except.ok ⟨est.source_idx, est.target_idx, est.transform, 1 / score⟩ :=
  fun _ _ => rfl

/-- C3 counterexample: a source descriptor cloud with a non-empty
recognised field schema but zero descriptors passes the guard (the loop
body never runs, so the behaviour is defined), and the matcher returns an
empty correspondence sequence instead of raising an error. -/
theorem C3_counterexample :
    findFeatureCorrespondences ["pfh"] ⟨["pfh"], []⟩ ⟨["pfh"], [[0]]⟩ =
      Except.ok (some []) := rfl

/-- C3 (amended): the matcher raises the input-contract error when the
field schema of either descriptor cloud is empty -- the guard inspects the
schema, not the descriptor count; a source descriptor set whose schema is
non-empty and recognised but which contains zero descriptors is not
rejected: the matcher returns the empty correspondence sequence. -/
theorem C3_schema_guard :
    (∀ (registry : List String) (s t : LocalDescriptors),
      s.fields = [] ∨ t.fields = [] →
      findFeatureCorrespondences registry s t =
        Except.error "descriptors must contain at least one field with descriptors.")
    ∧ ∀ (registry : List String) (s t : LocalDescriptors),
        s.fields ≠ [] → t.fields ≠ [] → s.fields.headD "" ∈ registry →
        s.points = [] →
        findFeatureCorrespondences registry s t = Except.ok (some []) := by
  constructor
  · intro registry s t h
    have ha : (s.fields.isEmpty ∨ t.fields.isEmpty : Prop) := by
      rcases h with h | h
      · exact Or.inl (by simp [h])
      · exact Or.inr (by simp [h])
    simp only [findFeatureCorrespondences, assertDescriptorsPair, if_pos ha]
    rfl
  · intro registry s t hs ht hreg hp
    have ha : ¬(s.fields.isEmpty ∨ t.fields.isEmpty : Prop) := by
      rintro (h | h)
      · exact hs (List.isEmpty_iff.mp h)
      · exact ht (List.isEmpty_iff.mp h)
    simp only [findFeatureCorrespondences, assertDescriptorsPair, if_neg ha,
      if_pos hreg]
    show Except.ok (findFeatureCorrespondencesChecked 5 s.points t.points)
      = Except.ok (some ([] : List Correspondence))
    rw [hp]
    rfl

/-- C3 witness: an empty field schema raises the error; a recognised
schema over an empty source descriptor set yields the empty sequence. -/
theorem C3_schema_guard_witness :
    findFeatureCorrespondences ["pfh"] ⟨[], [[0]]⟩ ⟨["pfh"], [[0]]⟩ =
      Except.error "descriptors must contain at least one field with descriptors."
    ∧ findFeatureCorrespondences ["pfh"] ⟨["pfh"], []⟩ ⟨["pfh"], [[0], [7]]⟩ =
      Except.ok (some []) := by
  constructor
  · exact C3_schema_guard.1 ["pfh"] ⟨[], [[0]]⟩ ⟨["pfh"], [[0]]⟩ (Or.inl rfl)
  · exact C3_schema_guard.2 ["pfh"] ⟨["pfh"], []⟩ ⟨["pfh"], [[0], [7]]⟩
      (by simp) (by simp) (by simp) rfl

/-- C4: the snapshot of matching.cpp hardcodes the neighbour count k = 5
(line 55) although matching.h line 8 declares a caller-supplied k with
default 5 and estimateMapsTransforms forwards a configured matching k.  On
one-dimensional descriptors, source [6], [11] against target [0], [10],
[20], [30], [40], the hardcoded k = 5 run accepts the reciprocal match of
source 0 at forward rank 0 via a backward rank 1 hit, while a configured
k = 1 run rejects it, so the two runs disagree: the code does not honour
the caller-supplied k. -/
theorem C4_hardcoded_k :
    findFeatureCorrespondencesK 5 [[6], [11]] [[0], [10], [20], [30], [40]]
      = [⟨0, 1, 16⟩, ⟨1, 1, 1⟩]
    ∧ findFeatureCorrespondencesK 1 [[6], [11]] [[0], [10], [20], [30], [40]]
      = [⟨1, 1, 1⟩]
    ∧ findFeatureCorrespondencesK 5 [[6], [11]] [[0], [10], [20], [30], [40]]
      ≠ findFeatureCorrespondencesK 1 [[6], [11]] [[0], [10], [20], [30], [40]] := by
  refine ⟨by decide, by decide, by decide⟩

/-- C5: if the consensus search returns the identity as its best model the
estimator reports failure with the all-zero transform and an empty inlier
set; otherwise it returns the SVD re-fit over the inlier correspondences
together with that inlier subset. -/
theorem C5_consensus_failure_policy :
    ∀ (ransac : RansacOutcome) (svdFit : List Correspondence → Mat4),
      (ransac.bestTransformation = 1 →
        estimateTransformFromCorrespondences ransac svdFit = (0, []))
      ∧ (ransac.bestTransformation ≠ 1 →
        estimateTransformFromCorrespondences ransac svdFit =
          (svdFit ransac.inliers, ransac.inliers)) := by
  intro r f
  constructor
  · intro h
    rw [estimateTransformFromCorrespondences, if_pos h]
  · intro h
    rw [estimateTransformFromCorrespondences, if_neg h]

/-- C5 witness: a consensus outcome whose best model is the identity
yields the zero transform and no inliers; a non-identity best model
yields the SVD fit over the inliers and the inliers themselves. -/
theorem C5_consensus_failure_policy_witness :
    estimateTransformFromCorrespondences ⟨1, [⟨0, 0, 0⟩]⟩ (fun _ => Ttr)
      = (0, [])
    ∧ estimateTransformFromCorrespondences ⟨0, [⟨0, 0, 0⟩]⟩ (fun _ => Ttr)
      = (Ttr, [⟨0, 0, 0⟩]) := by
  constructor
  · exact (C5_consensus_failure_policy ⟨1, [⟨0, 0, 0⟩]⟩ (fun _ => Ttr)).1 rfl
  · exact (C5_consensus_failure_policy ⟨0, [⟨0, 0, 0⟩]⟩ (fun _ => Ttr)).2
      (fun h => mat4_one_ne_zero (Eq.symm h))

/-- C6: after global transform computation the table assigns the identity
transform to the single chosen reference node (the first spanning-tree
center), and every node never reached by the breadth-first traversal
still carries the all-zero sentinel it was initialised with. -/
theorem C6_reference_identity_unreached_zero :
    ∀ (component : List TransformEstimate) (adj : ℕ → List ℕ)
      (center fuel : ℕ),
      computeGlobalTransforms component adj center fuel center = 1
      ∧ ∀ w, w ≠ center →
          (∀ e ∈ walkBFS adj fuel [center] [center], e.toIdx ≠ w) →
          computeGlobalTransforms component adj center fuel w = 0 := by
  intro component adj center fuel
  constructor
  · have h : ∀ e ∈ walkBFS adj fuel [center] [center], e.toIdx ≠ center := by
      intro e he heq
      exact (walkBFS_targets adj fuel [center] [center]).2 e he
        (by rw [heq]; exact List.mem_cons_self center [])
    rw [computeGlobalTransforms, foldSteps_untouched component _ _ center h,
      if_pos rfl]
  · intro w hw hwalk
    rw [computeGlobalTransforms, foldSteps_untouched component _ _ w hwalk,
      if_neg hw]

/-- Spanning-tree adjacency of the witness: node 0 has the single child 1. -/
def adjC6 : ℕ → List ℕ := fun i => if i = 0 then [1] else []

/-- C6 witness: with center 0 over the one-edge tree 0 - 1, node 0 gets
the identity and node 5, unreached by the walk, keeps the zero matrix. -/
theorem C6_reference_identity_unreached_zero_witness :
    computeGlobalTransforms [] adjC6 0 3 0 = 1
    ∧ computeGlobalTransforms [] adjC6 0 3 5 = 0 :=
  ⟨(C6_reference_identity_unreached_zero [] adjC6 0 3).1,
   (C6_reference_identity_unreached_zero [] adjC6 0 3).2 5 (by decide)
     (by decide)⟩

/-- C7: pair generation creates an estimate pair exactly for the unordered
map pairs in which both maps have at least one detected keypoint; every
generated pair satisfies source index less than target index, and no pair
is generated twice. -/
theorem C7_canonical_pairs :
    ∀ keycounts : List ℕ,
      (∀ p ∈ generatePairs keycounts, p.1 < p.2)
      ∧ (generatePairs keycounts).Nodup
      ∧ ∀ i j : ℕ, ((i, j) ∈ generatePairs keycounts ↔
          (i < j ∧ j < keycounts.length
            ∧ 0 < keycounts.getD i 0 ∧ 0 < keycounts.getD j 0)) := by
  intro keycounts
  refine ⟨?_, generatePairs_nodup keycounts,
    fun i j => mem_generatePairs keycounts i j⟩
  intro p hp
  obtain ⟨i, j⟩ := p
  exact ((mem_generatePairs keycounts i j).mp hp).1

/-- C7 witness: with keypoint counts 1, 0, 2 the only qualifying pair
(0, 2) is generated and is canonically ordered. -/
theorem C7_canonical_pairs_witness :
    (0, 2) ∈ generatePairs [1, 0, 2] ∧ (0 : ℕ) < 2 :=
  ⟨((C7_canonical_pairs [1, 0, 2]).2.2 0 2).mpr (by decide),
   (C7_canonical_pairs [1, 0, 2]).1 (0, 2) (by decide)⟩

/-- C8: the local-refinement estimator returns the composition of the
converged incremental transform with the supplied initial guess, never the
incremental transform alone: applying the result to a vector first applies
the initial guess and then the incremental transform. -/
theorem C8_icp_composes_initial_guess :
    ∀ icpFinalTransformation initial_guess : Mat4,
      estimateTransformICP icpFinalTransformation initial_guess =
        icpFinalTransformation * initial_guess
      ∧ ∀ v : Fin 4 → ℚ,
        (estimateTransformICP icpFinalTransformation initial_guess).mulVec v =
          icpFinalTransformation.mulVec (initial_guess.mulVec v) := by
  intro a g
  refine ⟨rfl, fun v => ?_⟩
  rw [estimateTransformICP, ← Matrix.mulVec_mulVec]

/-- C9: composeMaps throws on a clouds-transforms size mismatch;
otherwise it accumulates, transformed, exactly the maps whose transform is
not the zero sentinel and down-samples the result: with all transforms
zero the output is the down-sampled empty cloud, and with exactly one
identity transform and all others zero the output is that one map
down-sampled. -/
theorem C9_compose_maps :
    ∀ (ds : PointCloud → ℚ → PointCloud) (clouds : List PointCloud)
      (transforms : List Mat4) (resolution : ℚ),
      (clouds.length ≠ transforms.length →
        composeMaps ds clouds transforms resolution =
          Except.error "composeMaps: clouds and transforms size must be the same.")
      ∧ (clouds.length = transforms.length →
          composeMaps ds clouds transforms resolution =
            Except.ok (ds
              (((clouds.zip transforms).filter fun ct => ct.2 ≠ 0).flatMap
                fun ct => transformPointCloud ct.2 ct.1) resolution))
      ∧ (clouds.length = transforms.length → (∀ t ∈ transforms, t = 0) →
          composeMaps ds clouds transforms resolution =
            Except.ok (ds [] resolution))
      ∧ ∀ i : ℕ, clouds.length = transforms.length → i < clouds.length →
          transforms.getD i 0 = 1 →
          (∀ j, j < transforms.length → j ≠ i → transforms.getD j 0 = 0) →
          composeMaps ds clouds transforms resolution =
            Except.ok (ds (clouds.getD i []) resolution) := by
  intro ds clouds transforms resolution
  have hgen : clouds.length = transforms.length →
      composeMaps ds clouds transforms resolution =
        Except.ok (ds
          (((clouds.zip transforms).filter fun ct => ct.2 ≠ 0).flatMap
            fun ct => transformPointCloud ct.2 ct.1) resolution) := by
    intro h
    rw [composeMaps, if_neg (fun hx => hx h), composeFold_normal,
      List.nil_append]
  refine ⟨?_, hgen, ?_, ?_⟩
  · intro h
    rw [composeMaps, if_pos h]
  · intro h hz
    rw [hgen h]
    have hfil : (clouds.zip transforms).filter (fun ct => ct.2 ≠ 0) = [] := by
      rw [List.filter_eq_nil_iff]
      intro a ha
      simp [hz a.2 (List.of_mem_zip ha).2]
    rw [hfil]
    rfl
  · intro i h hi hone hzero
    rw [hgen h, composeSelect clouds transforms i h hi hone hzero]

/-- Down-sampler of the witness: the identity resampler. -/
def dsId : PointCloud → ℚ → PointCloud := fun c _ => c

/-- C9 witness: a size mismatch errors; an all-sentinel table yields the
empty cloud; a single identity transform yields that map unchanged. -/
theorem C9_compose_maps_witness :
    composeMaps dsId [] [Ttr] 0 =
      Except.error "composeMaps: clouds and transforms size must be the same."
    ∧ composeMaps dsId [[(1, 2, 3)]] [0] 0 = Except.ok []
    ∧ composeMaps dsId [[(1, 2, 3)]] [1] 0 = Except.ok [(1, 2, 3)] := by
  refine ⟨(C9_compose_maps dsId [] [Ttr] 0).1 (by simp),
    (C9_compose_maps dsId [[(1, 2, 3)]] [0] 0).2.2.1 rfl
      (fun t ht => List.mem_singleton.mp ht),
    (C9_compose_maps dsId [[(1, 2, 3)]] [1] 0).2.2.2 0 rfl (by simp) rfl ?_⟩
  intro j hj hne
  exact absurd (Nat.lt_one_iff.mp hj) hne

/-- C10: a lookup miss in getTransform yields the all-zero matrix, and the
sentinel is absorbing under the walk update: a single step from a zeroed
source zeroes the target, and over any walk whose edge targets are
pairwise distinct and avoid the already-zeroed nodes (as the breadth-first
walk guarantees, last conjunct) every node reached through a zeroed node
ends with the all-zero transform. -/
theorem C10_zero_absorbing :
    (∀ (P : List TransformEstimate) (f t : ℕ),
      findEst P f t = none → getTransform P f t = 0)
    ∧ (∀ (component : List TransformEstimate) (g : ℕ → Mat4) (e : GraphEdge),
        g e.fromIdx = 0 → stepEdge component g e e.toIdx = 0)
    ∧ (∀ (component : List TransformEstimate) (es : List GraphEdge)
        (zeroed : List ℕ) (g : ℕ → Mat4),
        (es.map GraphEdge.toIdx).Nodup →
        (∀ u ∈ zeroed, u ∉ es.map GraphEdge.toIdx) →
        (∀ u ∈ zeroed, g u = 0) →
        ∀ w ∈ zeroReached es zeroed, foldSteps component es g w = 0)
    ∧ ∀ (adj : ℕ → List ℕ) (fuel center : ℕ),
        ((walkBFS adj fuel [center] [center]).map GraphEdge.toIdx).Nodup := by
  refine ⟨?_, ?_, ?_, ?_⟩
  · intro P f t h
    exact getTransform_zero_of_findEst_none f t P h
  · intro component g e h
    show (if e.toIdx = e.toIdx then
        g e.fromIdx * getTransform component e.fromIdx e.toIdx else g e.toIdx)
      = 0
    rw [if_pos rfl, h, zero_mul]
  · intro component es zeroed g h1 h2 h3 w hw
    exact foldSteps_zero_absorbing component es zeroed g h1 h2 h3 w hw
  · intro adj fuel center
    exact (walkBFS_targets adj fuel [center] [center]).1

/-- Global table of the witness: node 1 zeroed, all others arbitrary. -/
def gC10 : ℕ → Mat4 := fun i => if i = 1 then 0 else 1

/-- C10 witness: an empty estimate list misses every lookup and yields the
zero matrix, and over the single walk edge from the zeroed node 1 to node
2 the final transform of node 2 is the zero matrix. -/
theorem C10_zero_absorbing_witness :
    getTransform [] 0 1 = 0 ∧ foldSteps [] [⟨1, 2⟩] gC10 2 = 0 :=
  ⟨C10_zero_absorbing.1 [] 0 1 rfl,
   C10_zero_absorbing.2.2.1 [] [⟨1, 2⟩] [1] gC10 (by decide) (by decide)
     (fun u hu => by
       rw [List.mem_singleton.mp hu]
       simp [gC10])
     2 (by decide)⟩
